import Mathlib

/-!
Shallow embedding of the Upload/Enhance controller implemented in
`image-enhancer/frontend/script.js` (class `ImageEnhancer`).

The controller is a single-threaded, event-driven object holding all session
state in instance fields and in a handful of DOM widgets.  We embed it as an
explicit state record `St` together with one Lean function per controller
method (`handleImageFile`, `enhanceImage`, `downloadImage`, `resetAll`, ...),
each translated line by line from the source.  Asynchronous callbacks
(FileReader events, image decode events, the fetch response) are modelled by
passing the outcome of the asynchronous step as an explicit argument to the
operation, which then runs the corresponding handler code; this preserves the
order in which the source installs and fires the handlers.

Browser object URLs (`URL.createObjectURL` / `URL.revokeObjectURL`) are
modelled by a counter `nextUrl` allocating fresh identifiers and a list
`liveUrls` of identifiers that have been created and not yet revoked.  Each
created URL is tagged with its creation site: the transient decode URL made
in `updateImageStats` (line 448 of the source) or the enhanced-result URL
made in `enhanceImage` (line 530).
-/

/-- A browser `File` value: name, MIME type string and size in bytes. -/
structure JFile where
  name : String
  type : String
  size : Nat
deriving DecidableEq

/-- Creation site of an object URL: the transient decode URL of
`updateImageStats`, or the enhanced-result URL of `enhanceImage`. -/
inductive UrlPurpose
  | stats
  | enhanced
deriving DecidableEq

/-- Outcome of the asynchronous `FileReader.readAsDataURL` call: exactly one
of `onload` (with the data URL), `onerror`, `onabort` fires. -/
inductive ReadOutcome
  | success (dataUrl : String)
  | failure
  | aborted
deriving DecidableEq

/-- Outcome of the `fetch` round trip in `enhanceImage`: the promise rejects
(network error with a message), resolves with `response.ok` false (status and
textual body), or resolves ok with a binary blob of some size. -/
inductive FetchOutcome
  | networkError (message : String)
  | httpError (status : Nat) (body : String)
  | ok (blobSize : Nat)
deriving DecidableEq

/-- Rendered content of the `originalStats` box set by `updateImageStats`:
hidden, the decode-error text, or the current and enhanced dimensions plus
file size and format. -/
inductive StatsBox
  | hidden
  | dimsError
  | shown (currentW currentH enhancedW enhancedH fileSize : Nat) (fmt : String)
deriving DecidableEq

/-- Rendered content of the `enhancedStats` box set on enhance success. -/
inductive EnhBox
  | hidden
  | shown (newW newH scale : Nat)
deriving DecidableEq

/-- The controller state: the `ImageEnhancer` instance fields together with
the DOM widgets the methods read and write. -/
structure St where
  originalImage : Option String
  enhancedImage : Option String
  currentImageFile : Option JFile
  enhancedImageUrl : Option Nat
  isMobile : Bool
  sharpnessSlider : ℚ
  contrastSlider : ℚ
  brightnessSlider : ℚ
  colorSlider : ℚ
  denoiseCheckbox : Bool
  superResSelect : Nat
  autoEnhanceCheckbox : Bool
  formatSelect : String
  fileInputValue : String
  enhanceBtnDisabled : Bool
  downloadBtnDisabled : Bool
  originalPreviewSrc : Option String
  enhancedPreviewSrc : Option String
  originalStats : StatsBox
  enhancedStats : EnhBox
  fileInfo : Option JFile
  statusText : String
  statusType : String
  statusVisible : Bool
  loadingMessage : String
  loadingVisible : Bool
  mobileProcessingVisible : Bool
  errorMessage : String
  errorModalVisible : Bool
  nextUrl : Nat
  liveUrls : List (Nat × UrlPurpose)
deriving DecidableEq

/-- `URL.createObjectURL`: allocate a fresh identifier, record it as live. -/
def createURL (s : St) (p : UrlPurpose) : St × Nat :=
  ({ s with nextUrl := s.nextUrl + 1, liveUrls := (s.nextUrl, p) :: s.liveUrls },
   s.nextUrl)

/-- `URL.revokeObjectURL`: the identifier stops being live. -/
def revokeURL (s : St) (u : Nat) : St :=
  { s with liveUrls := s.liveUrls.filter (fun q => q.1 != u) }

/-- Does the character list start with the pattern list? -/
def charsStartWith : List Char → List Char → Bool
  | [], _ => true
  | _ :: _, [] => false
  | p :: ps, c :: cs => p == c && charsStartWith ps cs

/-- Does the pattern list occur somewhere inside the character list? -/
def charsContain (pat : List Char) : List Char → Bool
  | [] => charsStartWith pat []
  | c :: cs => charsStartWith pat (c :: cs) || charsContain pat cs

/-- Substring containment on strings. -/
def strContainsSub (s pat : String) : Bool :=
  charsContain pat.toList s.toList

/-- JavaScript `ty.match('image.*')` is truthy: the argument is an
UNANCHORED regular expression, so the call succeeds exactly when the literal
text `image` occurs anywhere in `ty` (`.*` then matches the, possibly empty,
rest).  This is the file-type gate of `handleImageFile` (source line 328). -/
def jsMatchImageDotStar (ty : String) : Bool :=
  charsContain "image".toList ty.toList

/-- Does the string start with the given pattern? -/
def strStartsWith (s pat : String) : Bool :=
  charsStartWith pat.toList s.toList

/-- `showStatus` (source lines 750-762): write message and css class to the
status line and make it visible. -/
def showStatus (s : St) (message ty : String) : St :=
  { s with statusText := message, statusType := ty, statusVisible := true }

/-- `showErrorModal` (source lines 769-772): set the error text and open the
error modal. -/
def showErrorModal (s : St) (message : String) : St :=
  { s with errorMessage := message, errorModalVisible := true }

/-- `showLoading` (source lines 764-767). -/
def showLoading (s : St) (show_ : Bool) : St :=
  { s with loadingVisible := show_ }

/-- `hideModal` applied to the error modal. -/
def hideErrorModal (s : St) : St :=
  { s with errorModalVisible := false }

/-- `displayImage` (source lines 394-422): set the image source of the given
preview and show it. -/
def displayImage (s : St) (previewId : String) (imageUrl : String) : St :=
  if previewId = "originalPreview" then
    { s with originalPreviewSrc := some imageUrl }
  else
    { s with enhancedPreviewSrc := some imageUrl }

/-- `updateImageStats` (source lines 424-449): create an object URL for the
file and decode it in a transient `Image`; on `onload` render current and
enhanced (current times the selected super-resolution factor) dimensions, on
`onerror` render the failure text.  `dims` is the outcome of the decode.
The created object URL is never revoked by the source. -/
def updateImageStats (s : St) (file : JFile) (dims : Option (Nat × Nat)) : St :=
  let s := (createURL s UrlPurpose.stats).1
  match dims with
  | some (w, h) =>
    let scaleFactor := s.superResSelect
    { s with originalStats :=
        StatsBox.shown w h (w * scaleFactor) (h * scaleFactor) file.size file.type }
  | none => { s with originalStats := StatsBox.dimsError }

/-- `resetEnhancedPreview` (source lines 648-667): hide the enhanced preview
and stats, then revoke and clear the enhanced-result object URL if set. -/
def resetEnhancedPreview (s : St) : St :=
  let s := { s with enhancedPreviewSrc := none, enhancedStats := EnhBox.hidden }
  match s.enhancedImageUrl with
  | some u => { revokeURL s u with enhancedImageUrl := none }
  | none => s

/-- `handleImageFile` (source lines 319-392), together with the FileReader
callbacks it installs.  Validation is synchronous: a falsy file, a type whose
text does not match the unanchored regex `image.*`, or a size above the
device-dependent ceiling each show a status error and return without touching
any other state.  Otherwise `currentImageFile` is set BEFORE the asynchronous
read starts; `onloadstart` shows the loading status; then exactly one of
`onload` / `onerror` / `onabort` runs, given by `ro`.  `dims` is the outcome
of the image decode started by `updateImageStats` on the success path. -/
def handleImageFile (s : St) (file : Option JFile) (ro : ReadOutcome)
    (dims : Option (Nat × Nat)) : St :=
  match file with
  | none => showStatus s "No file provided" "error"
  | some f =>
    if !jsMatchImageDotStar f.type then
      showStatus s "Please select an image file (JPG, PNG, etc.)" "error"
    else
      let maxSize := if s.isMobile then 5 * 1024 * 1024 else 10 * 1024 * 1024
      if f.size > maxSize then
        let maxMB := if s.isMobile then "5MB" else "10MB"
        showStatus s ("File too large! Please select image under " ++ maxMB ++ ".") "error"
      else
        let s := { s with currentImageFile := some f }
        let s := showStatus s "Loading image..." "loading"
        match ro with
        | ReadOutcome.success dataUrl =>
          let s := { s with originalImage := some dataUrl }
          let s := displayImage s "originalPreview" dataUrl
          let s := updateImageStats s f dims
          let s := resetEnhancedPreview s
          let s := { s with enhanceBtnDisabled := false, downloadBtnDisabled := true }
          let s := { s with fileInfo := some f }
          showStatus s "✅ Image loaded! Adjust settings and click \"Enhance Image\"" "success"
        | ReadOutcome.failure => showStatus s "❌ Failed to load image" "error"
        | ReadOutcome.aborted => showStatus s "❌ Image loading cancelled" "error"

/-- The query string built at source lines 501-508: exactly the six
enhancement parameters, read from the sliders, the denoise checkbox and the
super-resolution selector of the current state.  The output-format selector
is not read. -/
def buildParams (s : St) : List (String × String) :=
  [("sharpness", toString s.sharpnessSlider),
   ("contrast", toString s.contrastSlider),
   ("brightness", toString s.brightnessSlider),
   ("color", toString s.colorSlider),
   ("denoise", toString s.denoiseCheckbox),
   ("super_resolution", toString s.superResSelect)]

/-- The one POST request `enhanceImage` may issue: a fixed path, the query
parameters, and the selected file as multipart body. -/
structure EnhanceRequest where
  path : String
  params : List (String × String)
  file : JFile
deriving DecidableEq

/-- `enhanceImage` (source lines 451-581) with its callbacks.  Guard: no
selected file shows a status error and returns.  On mobile with a requested
factor of at least 4, a blocking `confirm` is shown; `confirmAnswer` is the
answer, and decline returns with nothing mutated and no request.  Otherwise
the loading surfaces are shown, one request is dispatched, and `fo` resolves
it: network error or non-ok status reach the catch block, which opens the
error modal with the thrown message; an ok response revokes the previous
enhanced-result object URL (if any), creates the new one, displays it,
renders the enhanced stats from the decode outcome `dims` of the original
image, enables download and shows the success status.  The `finally` block
always hides the loading surfaces on every dispatched path. -/
def enhanceImage (s : St) (confirmAnswer : Bool) (fo : FetchOutcome)
    (dims : Option (Nat × Nat)) : St × Option EnhanceRequest :=
  match s.currentImageFile with
  | none => (showStatus s "Please select an image first" "error", none)
  | some f =>
    let superResValue := s.superResSelect
    if s.isMobile && decide (superResValue ≥ 4) && !confirmAnswer then
      (s, none)
    else
      let loadingMessage :=
        if superResValue = 4 then
          "Applying 4x super resolution... This may take longer."
        else if superResValue = 8 then
          "Applying 8x super resolution... Please be patient."
        else "Enhancing image... Please wait."
      let s := if s.isMobile then { s with mobileProcessingVisible := true } else s
      let s := { s with loadingMessage := loadingMessage }
      let s := showLoading s true
      let s := showStatus s loadingMessage "loading"
      let req : EnhanceRequest :=
        { path := "/enhance-advanced", params := buildParams s, file := f }
      let s :=
        match fo with
        | FetchOutcome.networkError msg =>
          showErrorModal s ("Enhancement failed: " ++ msg)
        | FetchOutcome.httpError status body =>
          showErrorModal s
            ("Enhancement failed: Server error: " ++ toString status ++ " - " ++ body)
        | FetchOutcome.ok _blobSize =>
          let s :=
            match s.enhancedImageUrl with
            | some u => revokeURL s u
            | none => s
          let (s, u) := createURL s UrlPurpose.enhanced
          let s := { s with enhancedImageUrl := some u }
          let s := displayImage s "enhancedPreview" ("blob:" ++ toString u)
          let s :=
            match dims with
            | some (w, h) =>
              let scale := superResValue
              { s with enhancedStats := EnhBox.shown (w * scale) (h * scale) scale }
            | none => s
          let s := { s with downloadBtnDisabled := false }
          let successMessage :=
            if superResValue > 1 then
              "✅ Image enhanced with " ++ toString superResValue ++
                "x super resolution! Click Download to save."
            else "✅ Image enhanced successfully! Click Download to save."
          showStatus s successMessage "success"
      let s := showLoading s false
      let s := if s.isMobile then { s with mobileProcessingVisible := false } else s
      (s, some req)

/-- The `retryBtn` click handler installed by `setupModalListeners` (source
lines 256-261): hide the error modal and, if a file is selected, call
`enhanceImage` again against the current state. -/
def retryClick (s : St) (confirmAnswer : Bool) (fo : FetchOutcome)
    (dims : Option (Nat × Nat)) : St × Option EnhanceRequest :=
  let s := hideErrorModal s
  match s.currentImageFile with
  | some _ => enhanceImage s confirmAnswer fo dims
  | none => (s, none)

/-- Result of a `downloadImage` call: the no-result validation error, a
JavaScript null dereference (reading `.name` of a null `currentImageFile`),
or a started download with its filename. -/
inductive DownloadOutcome
  | noEnhanced
  | nullDeref
  | started (filename : String)
deriving DecidableEq

/-- `originalName.substring(0, originalName.lastIndexOf('.'))`: everything
before the last dot, and the empty string when there is no dot (lastIndexOf
returns -1 and substring clamps it to 0). -/
def dropExtRev : List Char → List Char
  | [] => []
  | c :: cs => if c = '.' then cs else dropExtRev cs

/-- The `nameWithoutExt` value computed at source line 627. -/
def nameWithoutExt (n : String) : String :=
  String.mk (dropExtRev n.toList.reverse).reverse

/-- The timestamp of source line 628: ISO string cut to 19 characters with
colons replaced by dashes; `nowIso` is the raw `toISOString()` value. -/
def downloadTimestamp (nowIso : String) : String :=
  String.mk ((nowIso.toList.take 19).map fun c => if c = ':' then '-' else c)

/-- `downloadImage` (source lines 620-646).  Without an enhanced-result URL
it shows a validation error.  Otherwise it reads `this.currentImageFile.name`
WITHOUT a null check; the embedding makes that explicit: a null selected file
yields `DownloadOutcome.nullDeref` (a TypeError in the browser).  Otherwise
the filename is assembled and the synthetic anchor click starts the save. -/
def downloadImage (s : St) (nowIso : String) : St × DownloadOutcome :=
  match s.enhancedImageUrl with
  | none =>
    (showStatus s "No enhanced image to download" "error", DownloadOutcome.noEnhanced)
  | some _u =>
    match s.currentImageFile with
    | none => (s, DownloadOutcome.nullDeref)
    | some f =>
      let originalName := f.name
      let timestamp := downloadTimestamp nowIso
      let superResValue := s.superResSelect
      let scaleSuffix := if superResValue > 1 then "_" ++ toString superResValue ++ "x" else ""
      let filename :=
        "enhanced" ++ scaleSuffix ++ "_" ++ nameWithoutExt originalName ++ "_" ++
          timestamp ++ ".png"
      (showStatus s ("📥 Download started: " ++ filename) "success",
       DownloadOutcome.started filename)

/-- `resetImagePreview` (source lines 717-729) for one preview, identified as
in `displayImage`. -/
def resetImagePreview (s : St) (previewId : String) : St :=
  if previewId = "originalPreview" then
    { s with originalPreviewSrc := none }
  else
    { s with enhancedPreviewSrc := none }

/-- `resetAll` (source lines 669-715): clear the file input, both previews,
both stats boxes and the file info; disable both action buttons; put every
parameter widget back to its default; null the instance fields; revoke and
null the enhanced-result object URL; show the reset status. -/
def resetAll (s : St) : St :=
  let s := { s with fileInputValue := "" }
  let s := resetImagePreview s "originalPreview"
  let s := resetImagePreview s "enhancedPreview"
  let s := { s with originalStats := StatsBox.hidden, enhancedStats := EnhBox.hidden }
  let s := { s with fileInfo := none }
  let s := { s with enhanceBtnDisabled := true, downloadBtnDisabled := true }
  let s := { s with
    sharpnessSlider := 2.0, contrastSlider := 1.2,
    brightnessSlider := 1.1, colorSlider := 1.1,
    denoiseCheckbox := false, superResSelect := 1,
    autoEnhanceCheckbox := true, formatSelect := "png" }
  let s := { s with originalImage := none, enhancedImage := none,
                    currentImageFile := none }
  let s :=
    match s.enhancedImageUrl with
    | some u => { revokeURL s u with enhancedImageUrl := none }
    | none => s
  showStatus s "Reset complete. Upload a new image to start." "success"

/-- The observable user-level operations of the controller, each carrying the
outcomes of the asynchronous steps it triggers. -/
inductive Op
  | acceptFile (file : Option JFile) (ro : ReadOutcome) (dims : Option (Nat × Nat))
  | enhance (confirmAnswer : Bool) (fo : FetchOutcome) (dims : Option (Nat × Nat))
  | download (nowIso : String)
  | reset

/-- One controller operation, state part. -/
def step (s : St) : Op → St
  | Op.acceptFile f ro dims => handleImageFile s f ro dims
  | Op.enhance c fo dims => (enhanceImage s c fo dims).1
  | Op.download nowIso => (downloadImage s nowIso).1
  | Op.reset => resetAll s

/-- Run a sequence of operations from a state. -/
def run (s : St) (ops : List Op) : St :=
  ops.foldl step s

/-- The state after the `ImageEnhancer` constructor and `init` on a fresh
page: all instance fields null (source lines 2-6), no live object URL.  The
initial widget values are modelled from the spec: the repository does not
ship `index.html`, and the spec gives the parameter defaults
(sharpness=2.0, contrast=1.2, brightness=1.1, color=1.1, denoise=false,
superResolution=1) and both action buttons disabled until a file is
accepted. -/
def initSt (isMobile : Bool) : St where
  originalImage := none
  enhancedImage := none
  currentImageFile := none
  enhancedImageUrl := none
  isMobile := isMobile
  sharpnessSlider := 2.0
  contrastSlider := 1.2
  brightnessSlider := 1.1
  colorSlider := 1.1
  denoiseCheckbox := false
  superResSelect := 1
  autoEnhanceCheckbox := true
  formatSelect := "png"
  fileInputValue := ""
  enhanceBtnDisabled := true
  downloadBtnDisabled := true
  originalPreviewSrc := none
  enhancedPreviewSrc := none
  originalStats := StatsBox.hidden
  enhancedStats := EnhBox.hidden
  fileInfo := none
  statusText := ""
  statusType := ""
  statusVisible := false
  loadingMessage := ""
  loadingVisible := false
  mobileProcessingVisible := false
  errorMessage := ""
  errorModalVisible := false
  nextUrl := 0
  liveUrls := []

/-- The object URLs currently live for the enhanced result. -/
def enhLive (s : St) : List (Nat × UrlPurpose) :=
  s.liveUrls.filter (fun q => q.2 == UrlPurpose.enhanced)

/-! ### Helper lemmas about substring containment -/

theorem charsContain_nil_pat (l : List Char) : charsContain [] l = true := by
  cases l <;> simp [charsContain, charsStartWith]

theorem charsStartWith_append (pat rest : List Char) :
    charsStartWith pat (pat ++ rest) = true := by
  induction pat with
  | nil => simp [charsStartWith]
  | cons p ps ih => simp [charsStartWith, ih]

theorem charsContain_here (pat l : List Char) :
    charsContain pat (pat ++ l) = true := by
  cases pat with
  | nil => simpa using charsContain_nil_pat l
  | cons p ps =>
    have h := charsStartWith_append (p :: ps) l
    simp only [List.cons_append] at h
    simp [charsContain, h]

theorem charsContain_append_of (pat l₁ l₂ : List Char) :
    charsContain pat (l₁ ++ (pat ++ l₂)) = true := by
  induction l₁ with
  | nil => simpa using charsContain_here pat l₂
  | cons c cs ih => simp [charsContain, ih]

theorem strContainsSub_of_toList (s pat : String) (l₁ l₂ : List Char)
    (h : s.toList = l₁ ++ (pat.toList ++ l₂)) : strContainsSub s pat = true := by
  rw [strContainsSub, h]
  exact charsContain_append_of _ _ _

/-! ### C2: which files become the Selected File -/

/-- C2 counterexample.  The file-type gate of `handleImageFile` is the
JavaScript call `file.type.match('image.*')` with an UNANCHORED regular
expression, so a file whose MIME type merely contains the text `image` —
here `application/image`, which does not begin with `image/` — passes
validation and becomes the Selected File, refuting the claim that only files
whose type string begins with `image/` are accepted. -/
theorem c2_counterexample :
    ((handleImageFile (initSt false)
        (some { name := "weird.bin", type := "application/image", size := 100 })
        (ReadOutcome.success "d") none).currentImageFile =
      some { name := "weird.bin", type := "application/image", size := 100 }) ∧
    strStartsWith "application/image" "image/" = false := by
  decide

/-- C2 (amended): the accept-file gate is substring containment of `image`
in the MIME type, not a prefix match of `image/`.  A file whose type does
not contain `image` is rejected with a validation error and no change to the
Selected File, the previews, the button enablement, the stored original
image or the object URLs; a file whose type does contain `image` and whose
size is within the active ceiling becomes the Selected File once the read
succeeds. -/
theorem c2_image_substring_gate :
    (∀ (s : St) (f : JFile) (ro : ReadOutcome) (dims : Option (Nat × Nat)),
      jsMatchImageDotStar f.type = false →
      (handleImageFile s (some f) ro dims).currentImageFile = s.currentImageFile ∧
      (handleImageFile s (some f) ro dims).originalPreviewSrc = s.originalPreviewSrc ∧
      (handleImageFile s (some f) ro dims).enhancedPreviewSrc = s.enhancedPreviewSrc ∧
      (handleImageFile s (some f) ro dims).enhanceBtnDisabled = s.enhanceBtnDisabled ∧
      (handleImageFile s (some f) ro dims).downloadBtnDisabled = s.downloadBtnDisabled ∧
      (handleImageFile s (some f) ro dims).originalImage = s.originalImage ∧
      (handleImageFile s (some f) ro dims).enhancedImageUrl = s.enhancedImageUrl ∧
      (handleImageFile s (some f) ro dims).liveUrls = s.liveUrls ∧
      (handleImageFile s (some f) ro dims).statusType = "error" ∧
      (handleImageFile s (some f) ro dims).statusText =
        "Please select an image file (JPG, PNG, etc.)") ∧
    (∀ (s : St) (f : JFile) (d : String) (dims : Option (Nat × Nat)),
      jsMatchImageDotStar f.type = true →
      f.size ≤ (if s.isMobile then 5 * 1024 * 1024 else 10 * 1024 * 1024) →
      (handleImageFile s (some f) (ReadOutcome.success d) dims).currentImageFile = some f) := by
  constructor
  · intro s f ro dims h
    simp [handleImageFile, h, showStatus]
  · intro s f d dims h hsize
    simp only [handleImageFile, h, Bool.not_true, Bool.false_eq_true, if_false]
    rw [if_neg (by omega)]
    cases dims with
    | none =>
      simp [showStatus, displayImage, updateImageStats, createURL, resetEnhancedPreview,
        revokeURL]
      split <;> simp
    | some wh =>
      cases wh with
      | mk w h =>
        simp [showStatus, displayImage, updateImageStats, createURL, resetEnhancedPreview,
          revokeURL]
        split <;> simp

/-- C2 witness. -/
theorem c2_witness :
    jsMatchImageDotStar "text/plain" = false ∧
    (handleImageFile (initSt false)
        (some { name := "t.txt", type := "text/plain", size := 3 })
        ReadOutcome.failure none).currentImageFile = none ∧
    jsMatchImageDotStar "image/png" = true ∧
    (3 ≤ (if (initSt false).isMobile then 5 * 1024 * 1024 else 10 * 1024 * 1024)) ∧
    (handleImageFile (initSt false)
        (some { name := "a.png", type := "image/png", size := 3 })
        (ReadOutcome.success "d") none).currentImageFile =
      some { name := "a.png", type := "image/png", size := 3 } := by
  refine ⟨by decide, ?_, by decide, by decide, ?_⟩
  · have h := (c2_image_substring_gate.1 (initSt false)
      { name := "t.txt", type := "t" ++ "ext/plain", size := 3 } ReadOutcome.failure none
      (by decide)).1
    simpa using h
  · exact c2_image_substring_gate.2 (initSt false)
      { name := "a.png", type := "image/png", size := 3 } "d" none (by decide) (by decide)

/-! ### C3: failed or cancelled reads -/

/-- C3 counterexample.  `handleImageFile` assigns `currentImageFile` BEFORE
starting the asynchronous read (source line 342), and the `onerror` handler
only shows a status message.  After a first image loads successfully and a
second valid image fails to read, the Selected File is the second file and
the enhance button is still enabled — refuting the claim that no partial
state is retained, that the Selected File is not set, and that enhance is
not enabled after the failed read. -/
theorem c3_counterexample :
    ((run (initSt false)
        [Op.acceptFile (some { name := "a.png", type := "image/png", size := 100 })
            (ReadOutcome.success "d") (some (2, 2)),
         Op.acceptFile (some { name := "b.png", type := "image/png", size := 200 })
            ReadOutcome.failure none]).currentImageFile =
      some { name := "b.png", type := "image/png", size := 200 }) ∧
    (run (initSt false)
        [Op.acceptFile (some { name := "a.png", type := "image/png", size := 100 })
            (ReadOutcome.success "d") (some (2, 2)),
         Op.acceptFile (some { name := "b.png", type := "image/png", size := 200 })
            ReadOutcome.failure none]).enhanceBtnDisabled = false := by
  decide

/-- C3 (amended): when the asynchronous read of an accepted file fails or is
cancelled, a distinct user-visible error is shown for each outcome; but the
Selected File was already set to the offered file before the read started
and is retained afterwards, and the enhance enablement is simply left at its
previous value (so enhance is not newly enabled, yet stays enabled if an
earlier load had enabled it). -/
theorem c3_failed_read :
    ∀ (s : St) (f : JFile) (dims : Option (Nat × Nat)) (ro : ReadOutcome),
      jsMatchImageDotStar f.type = true →
      f.size ≤ (if s.isMobile then 5 * 1024 * 1024 else 10 * 1024 * 1024) →
      ro = ReadOutcome.failure ∨ ro = ReadOutcome.aborted →
      (handleImageFile s (some f) ro dims).statusType = "error" ∧
      (handleImageFile s (some f) ro dims).statusText =
        (if ro = ReadOutcome.failure then "❌ Failed to load image"
         else "❌ Image loading cancelled") ∧
      (handleImageFile s (some f) ro dims).currentImageFile = some f ∧
      (handleImageFile s (some f) ro dims).enhanceBtnDisabled = s.enhanceBtnDisabled ∧
      (handleImageFile s (some f) ro dims).downloadBtnDisabled = s.downloadBtnDisabled := by
  intro s f dims ro h hsize hro
  have hne : ¬ f.size > (if s.isMobile then 5 * 1024 * 1024 else 10 * 1024 * 1024) := by
    omega
  rcases hro with hro | hro <;> subst hro <;>
    simp [handleImageFile, h, hne, showStatus]

/-- C3 witness. -/
theorem c3_witness :
    jsMatchImageDotStar "image/png" = true ∧
    (7 ≤ (if (initSt false).isMobile then 5 * 1024 * 1024 else 10 * 1024 * 1024)) ∧
    (handleImageFile (initSt false)
        (some { name := "c.png", type := "image/png", size := 7 })
        ReadOutcome.aborted none).statusText = "❌ Image loading cancelled" ∧
    (handleImageFile (initSt false)
        (some { name := "c.png", type := "image/png", size := 7 })
        ReadOutcome.aborted none).currentImageFile =
      some { name := "c.png", type := "image/png", size := 7 } := by
  refine ⟨by decide, by decide, ?_, ?_⟩
  · have h := c3_failed_read (initSt false)
      { name := "c.png", type := "image/png", size := 7 } none ReadOutcome.aborted
      (by decide) (by decide) (Or.inr rfl)
    simpa using h.2.1
  · exact (c3_failed_read (initSt false)
      { name := "c.png", type := "image/png", size := 7 } none ReadOutcome.aborted
      (by decide) (by decide) (Or.inr rfl)).2.2.1

/-! ### C4: the size ceiling -/

/-- C4 counterexample.  The type gate runs before the size gate, so an
oversized file that also fails the type gate — here an 11MB `text/plain`
file on desktop — is rejected with the TYPE error message, which names no
size limit: the claim that every oversized file is rejected with an error
naming the applicable limit fails on it. -/
theorem c4_counterexample :
    (10 * 1024 * 1024 + 1 > 10 * 1024 * 1024) ∧
    (handleImageFile (initSt false)
        (some { name := "big.txt", type := "text/plain", size := 10 * 1024 * 1024 + 1 })
        ReadOutcome.failure none).statusText =
      "Please select an image file (JPG, PNG, etc.)" ∧
    strContainsSub
      (handleImageFile (initSt false)
        (some { name := "big.txt", type := "text/plain", size := 10 * 1024 * 1024 + 1 })
        ReadOutcome.failure none).statusText "10MB" = false ∧
    strContainsSub
      (handleImageFile (initSt false)
        (some { name := "big.txt", type := "text/plain", size := 10 * 1024 * 1024 + 1 })
        ReadOutcome.failure none).statusText "5MB" = false ∧
    (handleImageFile (initSt false)
        (some { name := "big.txt", type := "text/plain", size := 10 * 1024 * 1024 + 1 })
        ReadOutcome.failure none).currentImageFile = none := by
  decide

/-- C4 (amended): every file whose size strictly exceeds the active ceiling
(5MB in mobile mode, 10MB in desktop mode) is rejected during synchronous
validation — the accept-file flow makes no network call and the file never
becomes the Selected File, and no preview, button or object URL changes;
when additionally the file passes the (substring) image-type gate, the
validation error names the applicable limit, `5MB` or `10MB`. -/
theorem c4_size_ceiling :
    (∀ (s : St) (f : JFile) (ro : ReadOutcome) (dims : Option (Nat × Nat)),
      f.size > (if s.isMobile then 5 * 1024 * 1024 else 10 * 1024 * 1024) →
      (handleImageFile s (some f) ro dims).currentImageFile = s.currentImageFile ∧
      (handleImageFile s (some f) ro dims).originalPreviewSrc = s.originalPreviewSrc ∧
      (handleImageFile s (some f) ro dims).enhancedPreviewSrc = s.enhancedPreviewSrc ∧
      (handleImageFile s (some f) ro dims).enhanceBtnDisabled = s.enhanceBtnDisabled ∧
      (handleImageFile s (some f) ro dims).downloadBtnDisabled = s.downloadBtnDisabled ∧
      (handleImageFile s (some f) ro dims).liveUrls = s.liveUrls ∧
      (handleImageFile s (some f) ro dims).statusType = "error") ∧
    (∀ (s : St) (f : JFile) (ro : ReadOutcome) (dims : Option (Nat × Nat)),
      jsMatchImageDotStar f.type = true →
      f.size > (if s.isMobile then 5 * 1024 * 1024 else 10 * 1024 * 1024) →
      (handleImageFile s (some f) ro dims).statusText =
        ("File too large! Please select image under " ++
          (if s.isMobile then "5MB" else "10MB") ++ ".") ∧
      strContainsSub (handleImageFile s (some f) ro dims).statusText
        (if s.isMobile then "5MB" else "10MB") = true) := by
  constructor
  · intro s f ro dims hsize
    by_cases h : jsMatchImageDotStar f.type
    · simp [handleImageFile, h, hsize, showStatus]
    · simp only [Bool.not_eq_true] at h
      simp [handleImageFile, h, showStatus]
  · intro s f ro dims h hsize
    refine ⟨by simp [handleImageFile, h, hsize, showStatus], ?_⟩
    have htext : (handleImageFile s (some f) ro dims).statusText =
        ("File too large! Please select image under " ++
          (if s.isMobile then "5MB" else "10MB") ++ ".") := by
      simp [handleImageFile, h, hsize, showStatus]
    rw [htext]
    cases hm : s.isMobile <;> simp only [if_false, if_true, Bool.false_eq_true] <;> decide

/-- C4 witness. -/
theorem c4_witness :
    (5 * 1024 * 1024 + 1 >
      (if (initSt true).isMobile then 5 * 1024 * 1024 else 10 * 1024 * 1024)) ∧
    jsMatchImageDotStar "image/jpeg" = true ∧
    (handleImageFile (initSt true)
        (some { name := "big.jpg", type := "image/jpeg", size := 5 * 1024 * 1024 + 1 })
        ReadOutcome.failure none).currentImageFile = none ∧
    strContainsSub
      (handleImageFile (initSt true)
        (some { name := "big.jpg", type := "image/jpeg", size := 5 * 1024 * 1024 + 1 })
        ReadOutcome.failure none).statusText "5MB" = true := by
  refine ⟨by decide, by decide, ?_, ?_⟩
  · have h := (c4_size_ceiling.1 (initSt true)
      { name := "big.jpg", type := "image/jpeg", size := 5 * 1024 * 1024 + 1 }
      ReadOutcome.failure none (by decide)).1
    simpa using h
  · have h := (c4_size_ceiling.2 (initSt true)
      { name := "big.jpg", type := "image/jpeg", size := 5 * 1024 * 1024 + 1 }
      ReadOutcome.failure none (by decide) (by decide)).2
    simpa using h

/-! ### C7: reset restores the defaults -/

/-- C7: after `resetAll` the Selected File is cleared, every enhancement
parameter is back at its default (sharpness 2.0, contrast 1.2, brightness
1.1, color 1.1, denoise off, super-resolution 1), the enhanced result and
its object URL are cleared — any previously live enhanced-result URL is
revoked — the file input is emptied so the picker accepts new input, and
both the enhance and download actions are disabled. -/
theorem c7_reset_restores_defaults :
    ∀ s : St,
      (resetAll s).currentImageFile = none ∧
      (resetAll s).sharpnessSlider = 2.0 ∧
      (resetAll s).contrastSlider = 1.2 ∧
      (resetAll s).brightnessSlider = 1.1 ∧
      (resetAll s).colorSlider = 1.1 ∧
      (resetAll s).denoiseCheckbox = false ∧
      (resetAll s).superResSelect = 1 ∧
      (resetAll s).originalImage = none ∧
      (resetAll s).enhancedImage = none ∧
      (resetAll s).enhancedImageUrl = none ∧
      (resetAll s).enhancedPreviewSrc = none ∧
      (resetAll s).enhancedStats = EnhBox.hidden ∧
      (∀ (u : Nat) (p : UrlPurpose),
        s.enhancedImageUrl = some u → (u, p) ∉ (resetAll s).liveUrls) ∧
      (resetAll s).fileInputValue = "" ∧
      (resetAll s).enhanceBtnDisabled = true ∧
      (resetAll s).downloadBtnDisabled = true := by
  intro s
  cases hurl : s.enhancedImageUrl with
  | none =>
    simp [resetAll, resetImagePreview, hurl, showStatus]
  | some u =>
    refine ⟨?_, ?_, ?_, ?_, ?_, ?_, ?_, ?_, ?_, ?_, ?_, ?_, ?_, ?_, ?_, ?_⟩ <;>
      simp [resetAll, resetImagePreview, hurl, showStatus, revokeURL]
    intro u' p hu'
    cases hu'
    simp [List.mem_filter]

/-- A sample image file used for concrete instantiations. -/
def sampleImage : JFile := { name := "a.png", type := "image/png", size := 9 }

/-- A sample state with an enhanced result present. -/
def sampleEnhancedSt : St := { initSt false with
  currentImageFile := some sampleImage
  enhancedImageUrl := some 3
  liveUrls := [(3, UrlPurpose.enhanced)]
  superResSelect := 8
  denoiseCheckbox := true }

/-- A sample mobile state with a file selected and a high factor chosen. -/
def sampleMobileSt : St := { initSt true with
  currentImageFile := some sampleImage
  superResSelect := 4 }

/-- A sample desktop state with a file selected. -/
def sampleDesktopSt : St := { initSt false with
  currentImageFile := some sampleImage }

/-- C7 witness. -/
theorem c7_witness :
    (resetAll sampleEnhancedSt).currentImageFile = none ∧
    (resetAll sampleEnhancedSt).superResSelect = 1 ∧
    (3, UrlPurpose.enhanced) ∉ (resetAll sampleEnhancedSt).liveUrls := by
  have h := c7_reset_restores_defaults sampleEnhancedSt
  exact ⟨h.1, h.2.2.2.2.2.2.1,
    h.2.2.2.2.2.2.2.2.2.2.2.2.1 3 UrlPurpose.enhanced rfl⟩

/-! ### C5: the mobile upscale confirmation -/

/-- C5: with a file selected, in mobile mode with a requested factor of at
least 4, declining the blocking confirmation aborts `enhanceImage` with the
state completely unchanged, no request dispatched and no error surfaced;
and whenever the mode is not mobile or the factor is below 4, the result of
`enhanceImage` does not depend on the confirmation answer at all (no
confirmation is required). -/
theorem c5_mobile_confirm :
    (∀ (s : St) (f : JFile) (fo : FetchOutcome) (dims : Option (Nat × Nat)),
      s.currentImageFile = some f → s.isMobile = true → 4 ≤ s.superResSelect →
      enhanceImage s false fo dims = (s, none)) ∧
    (∀ (s : St) (fo : FetchOutcome) (dims : Option (Nat × Nat)) (c c' : Bool),
      ¬(s.isMobile = true ∧ 4 ≤ s.superResSelect) →
      enhanceImage s c fo dims = enhanceImage s c' fo dims) := by
  constructor
  · intro s f fo dims hf hm hres
    simp [enhanceImage, hf, hm, hres]
  · intro s fo dims c c' h
    cases hf : s.currentImageFile with
    | none => simp [enhanceImage, hf]
    | some f =>
      have hcond : ∀ b : Bool,
          (s.isMobile && decide (s.superResSelect ≥ 4) && !b) = false := by
        intro b
        cases hm : s.isMobile with
        | false => simp
        | true =>
          have : ¬ 4 ≤ s.superResSelect := fun hle => h ⟨hm, hle⟩
          simp [this]
      simp [enhanceImage, hf, hcond]

/-- C5 witness. -/
theorem c5_witness :
    sampleMobileSt.currentImageFile = some sampleImage ∧
    sampleMobileSt.isMobile = true ∧
    4 ≤ sampleMobileSt.superResSelect ∧
    enhanceImage sampleMobileSt false (FetchOutcome.ok 5) none = (sampleMobileSt, none) ∧
    ¬(sampleDesktopSt.isMobile = true ∧ 4 ≤ sampleDesktopSt.superResSelect) ∧
    enhanceImage sampleDesktopSt false (FetchOutcome.ok 5) none =
      enhanceImage sampleDesktopSt true (FetchOutcome.ok 5) none := by
  refine ⟨rfl, rfl, by decide, ?_, by decide, ?_⟩
  · exact c5_mobile_confirm.1 sampleMobileSt sampleImage (FetchOutcome.ok 5) none rfl rfl
      (by decide)
  · exact c5_mobile_confirm.2 sampleDesktopSt (FetchOutcome.ok 5) none false true (by decide)

/-! ### C6: non-success HTTP responses -/

theorem strContainsSub_append_right (a b : String) :
    strContainsSub (a ++ b) b = true := by
  apply strContainsSub_of_toList _ _ a.toList []
  simp

theorem strContainsSub_mid₄ (a b c d : String) :
    strContainsSub (a ++ b ++ c ++ d) b = true := by
  apply strContainsSub_of_toList _ _ a.toList (c.toList ++ d.toList)
  simp

/-- Any `enhanceImage` call that passes the guards (file selected, confirm
answered positively) dispatches exactly the request made of the fixed path,
the current parameters and the Selected File, whatever the outcome. -/
theorem enhanceDispatchReq (t : St) (f : JFile) (fo : FetchOutcome)
    (dims : Option (Nat × Nat)) (ht : t.currentImageFile = some f) :
    (enhanceImage t true fo dims).2 =
      some { path := "/enhance-advanced", params := buildParams t, file := f } := by
  have hcond : (t.isMobile && decide (t.superResSelect ≥ 4) && !true) = false := by
    simp
  simp only [enhanceImage, ht, hcond, Bool.false_eq_true, if_false, showLoading,
    showStatus, showErrorModal]
  split <;> split <;> simp [buildParams]

/-- The error path of `enhanceImage` only touches the status line, the
loading surfaces and the error modal: projections of every other field are
unchanged.  Stated for the fields the later claims need. -/
theorem enhanceHttpErrorState (s : St) (f : JFile) (c : Bool) (status : Nat)
    (body : String) (dims : Option (Nat × Nat))
    (hf : s.currentImageFile = some f)
    (hcond : (s.isMobile && decide (s.superResSelect ≥ 4) && !c) = false) :
    (enhanceImage s c (FetchOutcome.httpError status body) dims).1.errorModalVisible
        = true ∧
    (enhanceImage s c (FetchOutcome.httpError status body) dims).1.errorMessage =
      "Enhancement failed: Server error: " ++ toString status ++ " - " ++ body ∧
    (enhanceImage s c (FetchOutcome.httpError status body) dims).1.downloadBtnDisabled
        = s.downloadBtnDisabled ∧
    (enhanceImage s c (FetchOutcome.httpError status body) dims).1.currentImageFile
        = some f ∧
    (enhanceImage s c (FetchOutcome.httpError status body) dims).1.sharpnessSlider
        = s.sharpnessSlider ∧
    (enhanceImage s c (FetchOutcome.httpError status body) dims).1.contrastSlider
        = s.contrastSlider ∧
    (enhanceImage s c (FetchOutcome.httpError status body) dims).1.brightnessSlider
        = s.brightnessSlider ∧
    (enhanceImage s c (FetchOutcome.httpError status body) dims).1.colorSlider
        = s.colorSlider ∧
    (enhanceImage s c (FetchOutcome.httpError status body) dims).1.denoiseCheckbox
        = s.denoiseCheckbox ∧
    (enhanceImage s c (FetchOutcome.httpError status body) dims).1.superResSelect
        = s.superResSelect := by
  refine ⟨?_, ?_, ?_, ?_, ?_, ?_, ?_, ?_, ?_, ?_⟩ <;>
    · simp only [enhanceImage, hf, hcond, Bool.false_eq_true, if_false, showLoading,
        showStatus, showErrorModal]
      split <;> split <;> simp [hf]

/-- C6: when the dispatched enhance request resolves with a non-success
HTTP status and textual body, the surfaced message is exactly
`Enhancement failed: Server error: <status> - <body>` — so it contains both
the numeric status code and the body text — it is shown via the error
modal, the download enablement is left untouched (hence download remains
disabled whenever it was disabled), and the retry action of the modal
re-invokes enhance, dispatching a request that carries the same Selected
File and the currently-set parameters. -/
theorem c6_http_error_modal_and_retry :
    ∀ (s : St) (f : JFile) (c : Bool) (status : Nat) (body : String)
      (dims : Option (Nat × Nat)),
      s.currentImageFile = some f →
      ¬(s.isMobile = true ∧ 4 ≤ s.superResSelect ∧ c = false) →
      (enhanceImage s c (FetchOutcome.httpError status body) dims).1.errorModalVisible
          = true ∧
      (enhanceImage s c (FetchOutcome.httpError status body) dims).1.errorMessage =
        "Enhancement failed: Server error: " ++ toString status ++ " - " ++ body ∧
      strContainsSub
        (enhanceImage s c (FetchOutcome.httpError status body) dims).1.errorMessage
        (toString status) = true ∧
      strContainsSub
        (enhanceImage s c (FetchOutcome.httpError status body) dims).1.errorMessage
        body = true ∧
      (enhanceImage s c (FetchOutcome.httpError status body) dims).1.downloadBtnDisabled
        = s.downloadBtnDisabled ∧
      (s.downloadBtnDisabled = true →
        (enhanceImage s c (FetchOutcome.httpError status body) dims).1.downloadBtnDisabled
          = true) ∧
      (∀ (fo₂ : FetchOutcome) (dims₂ : Option (Nat × Nat)),
        (retryClick (enhanceImage s c (FetchOutcome.httpError status body) dims).1
            true fo₂ dims₂).2 =
          some { path := "/enhance-advanced", params := buildParams s, file := f }) := by
  intro s f c status body dims hf hguard
  have hcond : (s.isMobile && decide (s.superResSelect ≥ 4) && !c) = false := by
    cases hm : s.isMobile with
    | false => simp
    | true =>
      cases hc : c with
      | true => simp
      | false =>
        have : ¬ 4 ≤ s.superResSelect := fun hle => hguard ⟨hm, hle, hc⟩
        simp [this]
  obtain ⟨h1, h2, h3, h4, h5, h6, h7, h8, h9, h10⟩ :=
    enhanceHttpErrorState s f c status body dims hf hcond
  refine ⟨h1, h2, ?_, ?_, h3, fun hdl => h3.trans hdl, ?_⟩
  · rw [h2]
    exact strContainsSub_mid₄ "Enhancement failed: Server error: " (toString status)
      " - " body
  · rw [h2]
    exact strContainsSub_append_right
      ("Enhancement failed: Server error: " ++ toString status ++ " - ") body
  · intro fo₂ dims₂
    have key : ∀ t : St, t.currentImageFile = some f →
        t.sharpnessSlider = s.sharpnessSlider → t.contrastSlider = s.contrastSlider →
        t.brightnessSlider = s.brightnessSlider → t.colorSlider = s.colorSlider →
        t.denoiseCheckbox = s.denoiseCheckbox → t.superResSelect = s.superResSelect →
        (retryClick t true fo₂ dims₂).2 =
          some { path := "/enhance-advanced", params := buildParams s, file := f } := by
      intro t k4 k5 k6 k7 k8 k9 k10
      have kt : ({ t with errorModalVisible := false } : St).currentImageFile = some f := k4
      simp only [retryClick, hideErrorModal, kt]
      refine (enhanceDispatchReq _ f fo₂ dims₂ kt).trans ?_
      simp [buildParams, k5, k6, k7, k8, k9, k10]
    exact key _ h4 h5 h6 h7 h8 h9 h10

/-- C6 witness. -/
theorem c6_witness :
    sampleDesktopSt.currentImageFile = some sampleImage ∧
    ¬(sampleDesktopSt.isMobile = true ∧ 4 ≤ sampleDesktopSt.superResSelect ∧
        true = false) ∧
    (enhanceImage sampleDesktopSt true (FetchOutcome.httpError 500 "OOM")
        none).1.errorModalVisible = true ∧
    strContainsSub
      (enhanceImage sampleDesktopSt true (FetchOutcome.httpError 500 "OOM")
        none).1.errorMessage (toString 500) = true ∧
    strContainsSub
      (enhanceImage sampleDesktopSt true (FetchOutcome.httpError 500 "OOM")
        none).1.errorMessage "OOM" = true ∧
    (retryClick
        (enhanceImage sampleDesktopSt true (FetchOutcome.httpError 500 "OOM") none).1
        true (FetchOutcome.ok 7) none).2 =
      some { path := "/enhance-advanced", params := buildParams sampleDesktopSt,
             file := sampleImage } := by
  have h := c6_http_error_modal_and_retry sampleDesktopSt sampleImage true 500 "OOM"
    none rfl (by decide)
  exact ⟨rfl, by decide, h.1, h.2.2.1, h.2.2.2.1,
    h.2.2.2.2.2.2 (FetchOutcome.ok 7) none⟩

/-! ### C8: displayed enhanced size -/

/-- C8: for an accepted file whose decode yields dimensions (w, h) and the
chosen super-resolution factor S among 1, 2, 4, 8, the pre-enhance stats box
displays current size (w, h) and enhanced size exactly (w*S, h*S); and after
a successful enhance whose original-image decode yields (w, h), the
post-enhance stats box displays new size exactly (w*S, h*S) at scale S. -/
theorem c8_enhanced_size :
    (∀ (s : St) (f : JFile) (d : String) (w h : Nat),
      s.superResSelect = 1 ∨ s.superResSelect = 2 ∨ s.superResSelect = 4 ∨
        s.superResSelect = 8 →
      jsMatchImageDotStar f.type = true →
      f.size ≤ (if s.isMobile then 5 * 1024 * 1024 else 10 * 1024 * 1024) →
      (handleImageFile s (some f) (ReadOutcome.success d) (some (w, h))).originalStats =
        StatsBox.shown w h (w * s.superResSelect) (h * s.superResSelect)
          f.size f.type) ∧
    (∀ (s : St) (f : JFile) (c : Bool) (blobSize w h : Nat),
      s.superResSelect = 1 ∨ s.superResSelect = 2 ∨ s.superResSelect = 4 ∨
        s.superResSelect = 8 →
      s.currentImageFile = some f →
      ¬(s.isMobile = true ∧ 4 ≤ s.superResSelect ∧ c = false) →
      (enhanceImage s c (FetchOutcome.ok blobSize) (some (w, h))).1.enhancedStats =
        EnhBox.shown (w * s.superResSelect) (h * s.superResSelect)
          s.superResSelect) := by
  constructor
  · intro s f d w h _hS htype hsize
    have hne : ¬ f.size > (if s.isMobile then 5 * 1024 * 1024 else 10 * 1024 * 1024) := by
      omega
    simp only [handleImageFile, htype, Bool.not_true, Bool.false_eq_true, if_false]
    rw [if_neg hne]
    simp only [showStatus, displayImage, updateImageStats, createURL,
      resetEnhancedPreview, revokeURL]
    split <;> simp
  · intro s f c blobSize w h _hS hf hguard
    have hcond : (s.isMobile && decide (s.superResSelect ≥ 4) && !c) = false := by
      cases hm : s.isMobile with
      | false => simp
      | true =>
        cases hc : c with
        | true => simp
        | false =>
          have : ¬ 4 ≤ s.superResSelect := fun hle => hguard ⟨hm, hle, hc⟩
          simp [this]
    cases hm : s.isMobile with
    | false =>
      cases hu : s.enhancedImageUrl <;>
        simp [enhanceImage, hf, hcond, hm, hu, showLoading, showStatus,
          showErrorModal, displayImage, createURL, revokeURL]
    | true =>
      have hg : ¬(4 ≤ s.superResSelect ∧ c = false) := fun hx =>
        hguard ⟨hm, hx.1, hx.2⟩
      cases hu : s.enhancedImageUrl <;>
        simp [enhanceImage, hf, hcond, hm, hu, hg, showLoading, showStatus,
          showErrorModal, displayImage, createURL, revokeURL]

/-- C8 witness. -/
theorem c8_witness :
    ((initSt false).superResSelect = 1 ∨ (initSt false).superResSelect = 2 ∨
      (initSt false).superResSelect = 4 ∨ (initSt false).superResSelect = 8) ∧
    jsMatchImageDotStar "image/png" = true ∧
    (9 ≤ (if (initSt false).isMobile then 5 * 1024 * 1024 else 10 * 1024 * 1024)) ∧
    (handleImageFile (initSt false) (some sampleImage) (ReadOutcome.success "d")
        (some (30, 20))).originalStats = StatsBox.shown 30 20 30 20 9 "image/png" ∧
    (sampleMobileSt.superResSelect = 1 ∨ sampleMobileSt.superResSelect = 2 ∨
      sampleMobileSt.superResSelect = 4 ∨ sampleMobileSt.superResSelect = 8) ∧
    sampleMobileSt.currentImageFile = some sampleImage ∧
    ¬(sampleMobileSt.isMobile = true ∧ 4 ≤ sampleMobileSt.superResSelect ∧
        true = false) ∧
    (enhanceImage sampleMobileSt true (FetchOutcome.ok 11) (some (30, 20))).1.enhancedStats
      = EnhBox.shown 120 80 4 := by
  refine ⟨by decide, by decide, by decide, ?_, by decide, rfl, by decide, ?_⟩
  · have h := c8_enhanced_size.1 (initSt false) sampleImage "d" 30 20 (by decide)
      (by decide) (by decide)
    simpa [sampleImage] using h
  · have h := c8_enhanced_size.2 sampleMobileSt sampleImage true 11 30 20 (by decide)
      rfl (by decide)
    simpa [sampleMobileSt] using h

/-! ### C9: request keys and download extension -/

/-- C9: every request `enhanceImage` dispatches carries as query keys exactly
`sharpness`, `contrast`, `brightness`, `color`, `denoise` and
`super_resolution`, in that order; the dispatched request is entirely
independent of the output-format selector; and every started download uses a
filename ending in `.png`, whatever the selected output format and original
name. -/
theorem c9_params_and_png_name :
    (∀ (s : St) (c : Bool) (fo : FetchOutcome) (dims : Option (Nat × Nat))
        (req : EnhanceRequest),
      (enhanceImage s c fo dims).2 = some req →
      req.params.map Prod.fst =
        ["sharpness", "contrast", "brightness", "color", "denoise",
         "super_resolution"]) ∧
    (∀ (s : St) (fmt : String) (c : Bool) (fo : FetchOutcome)
        (dims : Option (Nat × Nat)),
      (enhanceImage { s with formatSelect := fmt } c fo dims).2 =
        (enhanceImage s c fo dims).2) ∧
    (∀ (s : St) (nowIso : String) (fn : String),
      (downloadImage s nowIso).2 = DownloadOutcome.started fn →
      ∃ p, fn = p ++ ".png") := by
  refine ⟨?_, ?_, ?_⟩
  · intro s c fo dims req hreq
    cases hf : s.currentImageFile with
    | none => simp [enhanceImage, hf] at hreq
    | some f =>
      by_cases hcond : (s.isMobile && decide (s.superResSelect ≥ 4) && !c) = true
      · simp [enhanceImage, hf, hcond] at hreq
      · simp only [Bool.not_eq_true] at hcond
        simp only [enhanceImage, hf, hcond, Bool.false_eq_true, if_false] at hreq
        obtain rfl := Option.some_injective _ hreq.symm
        simp [buildParams]
  · intro s fmt c fo dims
    cases hf : s.currentImageFile with
    | none => simp [enhanceImage, hf]
    | some f =>
      by_cases hcond : (s.isMobile && decide (s.superResSelect ≥ 4) && !c) = true
      · simp [enhanceImage, hf, hcond]
      · simp only [Bool.not_eq_true] at hcond
        cases hm : s.isMobile with
        | false =>
          cases fo <;> cases hu : s.enhancedImageUrl <;>
            simp [enhanceImage, hf, hcond, hm, hu, buildParams, showStatus,
              showLoading, showErrorModal, displayImage, createURL, revokeURL]
        | true =>
          rw [hm] at hcond
          have hg : ¬(4 ≤ s.superResSelect ∧ c = false) := by
            intro hx
            rcases hx with ⟨h1, h2⟩
            subst h2
            simp [h1] at hcond
          cases fo <;> cases hu : s.enhancedImageUrl <;>
            simp [enhanceImage, hf, hcond, hm, hu, hg, buildParams, showStatus,
              showLoading, showErrorModal, displayImage, createURL, revokeURL]
  · intro s nowIso fn hfn
    cases hu : s.enhancedImageUrl with
    | none => simp [downloadImage, hu] at hfn
    | some u =>
      cases hf : s.currentImageFile with
      | none => simp [downloadImage, hu, hf] at hfn
      | some f =>
        simp only [downloadImage, hu, hf] at hfn
        have hbig := (DownloadOutcome.started.injEq _ _).mp hfn
        exact ⟨_, hbig.symm⟩

/-- C9 witness. -/
theorem c9_witness :
    (enhanceImage sampleDesktopSt true (FetchOutcome.ok 5) none).2 =
      some { path := "/enhance-advanced", params := buildParams sampleDesktopSt,
             file := sampleImage } ∧
    (buildParams sampleDesktopSt).map Prod.fst =
      ["sharpness", "contrast", "brightness", "color", "denoise",
       "super_resolution"] ∧
    (enhanceImage { sampleDesktopSt with formatSelect := "jpeg" } true
        (FetchOutcome.ok 5) none).2 =
      (enhanceImage sampleDesktopSt true (FetchOutcome.ok 5) none).2 ∧
    (downloadImage sampleEnhancedSt "2026-10-11T12:00:00.000Z").2 =
      DownloadOutcome.started "enhanced_8x_a_2026-10-11T12-00-00.png" ∧
    ∃ p, "enhanced_8x_a_2026-10-11T12-00-00.png" = p ++ ".png" := by
  have hreq := enhanceDispatchReq sampleDesktopSt sampleImage (FetchOutcome.ok 5)
    none rfl
  refine ⟨hreq, ?_, ?_, by decide, ?_⟩
  · exact c9_params_and_png_name.1 sampleDesktopSt true (FetchOutcome.ok 5) none
      { path := "/enhance-advanced", params := buildParams sampleDesktopSt,
        file := sampleImage } hreq
  · exact c9_params_and_png_name.2.1 sampleDesktopSt "jpeg" true (FetchOutcome.ok 5) none
  · exact c9_params_and_png_name.2.2 sampleEnhancedSt "2026-10-11T12:00:00.000Z"
      "enhanced_8x_a_2026-10-11T12-00-00.png" (by decide)

/-! ### C1: object URL liveness -/

/-- The enhanced-result entries the controller believes live: exactly the
one tracked by `enhancedImageUrl`, if any. -/
def enhExpected (s : St) : List (Nat × UrlPurpose) :=
  match s.enhancedImageUrl with
  | some u => [(u, UrlPurpose.enhanced)]
  | none => []

/-- Invariant: the live enhanced-result URLs are exactly the tracked one. -/
def EnhInv (s : St) : Prop := enhLive s = enhExpected s

theorem enhLive_revokeURL (s : St) (u : Nat) :
    enhLive (revokeURL s u) = (enhLive s).filter (fun q => q.1 != u) := by
  simp [enhLive, revokeURL, List.filter_filter, Bool.and_comm]

theorem mem_enh_eq (l : List (Nat × UrlPurpose)) (u : Nat)
    (h : l.filter (fun q => q.2 == UrlPurpose.enhanced) = [(u, UrlPurpose.enhanced)]) :
    ∀ (a : Nat) (b : UrlPurpose), (a, b) ∈ l → b = UrlPurpose.enhanced → a = u := by
  intro a b hab hb
  subst hb
  have hmem : (a, UrlPurpose.enhanced) ∈
      l.filter (fun q => q.2 == UrlPurpose.enhanced) := by
    simp [List.mem_filter, hab]
  rw [h] at hmem
  simpa using hmem

theorem enhInv_handleImageFile (s : St) (file : Option JFile) (ro : ReadOutcome)
    (dims : Option (Nat × Nat)) (h : EnhInv s) :
    EnhInv (handleImageFile s file ro dims) := by
  cases file with
  | none => simpa [handleImageFile, showStatus, EnhInv, enhLive, enhExpected] using h
  | some f =>
    by_cases ht : jsMatchImageDotStar f.type
    · by_cases hs : f.size > (if s.isMobile then 5 * 1024 * 1024 else 10 * 1024 * 1024)
      · simpa [handleImageFile, ht, hs, showStatus, EnhInv, enhLive, enhExpected] using h
      · cases ro with
        | success d =>
          cases hu : s.enhancedImageUrl with
          | none =>
            simp only [EnhInv, enhLive, enhExpected, hu] at h
            cases dims with
            | none =>
              simp [handleImageFile, ht, hs, showStatus, displayImage,
                updateImageStats, createURL, resetEnhancedPreview, revokeURL, hu,
                EnhInv, enhLive, enhExpected, h]
            | some wh =>
              cases wh with
              | mk w hh =>
                simp [handleImageFile, ht, hs, showStatus, displayImage,
                  updateImageStats, createURL, resetEnhancedPreview, revokeURL, hu,
                  EnhInv, enhLive, enhExpected, h]
          | some u =>
            simp only [EnhInv, enhLive, enhExpected, hu] at h
            cases dims with
            | none =>
              simp [handleImageFile, ht, hs, showStatus, displayImage,
                updateImageStats, createURL, resetEnhancedPreview, revokeURL, hu,
                EnhInv, enhLive, enhExpected, List.filter_filter, h]
              exact mem_enh_eq s.liveUrls u h
            | some wh =>
              cases wh with
              | mk w hh =>
                simp [handleImageFile, ht, hs, showStatus, displayImage,
                  updateImageStats, createURL, resetEnhancedPreview, revokeURL, hu,
                  EnhInv, enhLive, enhExpected, List.filter_filter, h]
                exact mem_enh_eq s.liveUrls u h
        | failure =>
          simpa [handleImageFile, ht, hs, showStatus, EnhInv, enhLive, enhExpected]
            using h
        | aborted =>
          simpa [handleImageFile, ht, hs, showStatus, EnhInv, enhLive, enhExpected]
            using h
    · simp only [Bool.not_eq_true] at ht
      simpa [handleImageFile, ht, showStatus, EnhInv, enhLive, enhExpected] using h

theorem enhInv_enhanceImage (s : St) (c : Bool) (fo : FetchOutcome)
    (dims : Option (Nat × Nat)) (h : EnhInv s) :
    EnhInv (enhanceImage s c fo dims).1 := by
  cases hf : s.currentImageFile with
  | none => simpa [enhanceImage, hf, showStatus, EnhInv, enhLive, enhExpected] using h
  | some f =>
    by_cases hcond : (s.isMobile && decide (s.superResSelect ≥ 4) && !c) = true
    · simpa [enhanceImage, hf, hcond] using h
    · simp only [Bool.not_eq_true] at hcond
      cases hm : s.isMobile with
      | false =>
        cases fo with
        | networkError m =>
          simpa [enhanceImage, hf, hcond, hm, showLoading, showStatus, showErrorModal,
            EnhInv, enhLive, enhExpected] using h
        | httpError st b =>
          simpa [enhanceImage, hf, hcond, hm, showLoading, showStatus, showErrorModal,
            EnhInv, enhLive, enhExpected] using h
        | ok b =>
          cases hu : s.enhancedImageUrl with
          | none =>
            simp only [EnhInv, enhLive, enhExpected, hu] at h
            cases dims with
            | none =>
              simp [enhanceImage, hf, hcond, hm, hu, showLoading, showStatus,
                showErrorModal, displayImage, createURL, revokeURL, EnhInv, enhLive,
                enhExpected, h]
            | some wh =>
              cases wh with
              | mk w hh =>
                simp [enhanceImage, hf, hcond, hm, hu, showLoading, showStatus,
                  showErrorModal, displayImage, createURL, revokeURL, EnhInv, enhLive,
                  enhExpected, h]
          | some u =>
            simp only [EnhInv, enhLive, enhExpected, hu] at h
            cases dims with
            | none =>
              simp [enhanceImage, hf, hcond, hm, hu, showLoading, showStatus,
                showErrorModal, displayImage, createURL, revokeURL, EnhInv, enhLive,
                enhExpected, List.filter_filter, h]
              exact mem_enh_eq s.liveUrls u h
            | some wh =>
              cases wh with
              | mk w hh =>
                simp [enhanceImage, hf, hcond, hm, hu, showLoading, showStatus,
                  showErrorModal, displayImage, createURL, revokeURL, EnhInv, enhLive,
                  enhExpected, List.filter_filter, h]
                exact mem_enh_eq s.liveUrls u h
      | true =>
        rw [hm] at hcond
        have hg : ¬(4 ≤ s.superResSelect ∧ c = false) := by
          intro hx
          rcases hx with ⟨h1, h2⟩
          subst h2
          simp [h1] at hcond
        cases fo with
        | networkError m =>
          simpa [enhanceImage, hf, hcond, hm, hg, showLoading, showStatus,
            showErrorModal, EnhInv, enhLive, enhExpected] using h
        | httpError st b =>
          simpa [enhanceImage, hf, hcond, hm, hg, showLoading, showStatus,
            showErrorModal, EnhInv, enhLive, enhExpected] using h
        | ok b =>
          cases hu : s.enhancedImageUrl with
          | none =>
            simp only [EnhInv, enhLive, enhExpected, hu] at h
            cases dims with
            | none =>
              simp [enhanceImage, hf, hcond, hm, hu, hg, showLoading, showStatus,
                showErrorModal, displayImage, createURL, revokeURL, EnhInv, enhLive,
                enhExpected, h]
            | some wh =>
              cases wh with
              | mk w hh =>
                simp [enhanceImage, hf, hcond, hm, hu, hg, showLoading, showStatus,
                  showErrorModal, displayImage, createURL, revokeURL, EnhInv, enhLive,
                  enhExpected, h]
          | some u =>
            simp only [EnhInv, enhLive, enhExpected, hu] at h
            cases dims with
            | none =>
              simp [enhanceImage, hf, hcond, hm, hu, hg, showLoading, showStatus,
                showErrorModal, displayImage, createURL, revokeURL, EnhInv, enhLive,
                enhExpected, List.filter_filter, h]
              exact mem_enh_eq s.liveUrls u h
            | some wh =>
              cases wh with
              | mk w hh =>
                simp [enhanceImage, hf, hcond, hm, hu, hg, showLoading, showStatus,
                  showErrorModal, displayImage, createURL, revokeURL, EnhInv, enhLive,
                  enhExpected, List.filter_filter, h]
                exact mem_enh_eq s.liveUrls u h

theorem enhInv_downloadImage (s : St) (nowIso : String) (h : EnhInv s) :
    EnhInv (downloadImage s nowIso).1 := by
  cases hu : s.enhancedImageUrl with
  | none => simpa [downloadImage, hu, showStatus, EnhInv, enhLive, enhExpected] using h
  | some u =>
    cases hf : s.currentImageFile with
    | none => simpa [downloadImage, hu, hf, EnhInv, enhLive, enhExpected] using h
    | some f =>
      simpa [downloadImage, hu, hf, showStatus, EnhInv, enhLive, enhExpected, hu]
        using h

theorem enhInv_resetAll (s : St) (h : EnhInv s) : EnhInv (resetAll s) := by
  cases hu : s.enhancedImageUrl with
  | none =>
    simpa [resetAll, resetImagePreview, hu, showStatus, EnhInv, enhLive, enhExpected]
      using h
  | some u =>
    simp only [EnhInv, enhLive, enhExpected, hu] at h
    simp [resetAll, resetImagePreview, hu, showStatus, revokeURL, EnhInv, enhLive,
      enhExpected, List.filter_filter, h]
    exact mem_enh_eq s.liveUrls u h

theorem enhInv_step (s : St) (op : Op) (h : EnhInv s) : EnhInv (step s op) := by
  cases op with
  | acceptFile f ro dims => exact enhInv_handleImageFile s f ro dims h
  | enhance c fo dims => exact enhInv_enhanceImage s c fo dims h
  | download nowIso => exact enhInv_downloadImage s nowIso h
  | reset => exact enhInv_resetAll s h

theorem enhInv_run (ops : List Op) (s : St) (h : EnhInv s) : EnhInv (run s ops) := by
  induction ops generalizing s with
  | nil => simpa [run] using h
  | cons op ops ih =>
    have hstep := enhInv_step s op h
    simpa [run, List.foldl_cons] using ih (step s op) hstep

/-- C1 counterexample.  `updateImageStats` creates an object URL for the
decode preview (source line 448) that is never revoked anywhere, so after
one successful accept-file followed by one successful enhance, TWO object
URLs created by the controller are live at the same time — refuting the
claim that at most one controller-created object URL is ever live and that
each creation is preceded by a revocation of the previous one. -/
theorem c1_counterexample :
    ((run (initSt false)
        [Op.acceptFile (some { name := "a.png", type := "image/png", size := 100 })
            (ReadOutcome.success "d") (some (2, 2)),
         Op.enhance true (FetchOutcome.ok 5) (some (2, 2))]).liveUrls.length = 2) ∧
    ¬((run (initSt false)
        [Op.acceptFile (some { name := "a.png", type := "image/png", size := 100 })
            (ReadOutcome.success "d") (some (2, 2)),
         Op.enhance true (FetchOutcome.ok 5) (some (2, 2))]).liveUrls.length ≤ 1) := by
  decide

/-- C1 (amended): the revoke-before-replace discipline holds for the
ENHANCED-RESULT object URL: in every state reachable from a fresh page, at
most one enhanced-result object URL is live (the one tracked by the
controller, each creation of which is preceded by revocation of the prior
one); the decode-preview URLs created by `updateImageStats`, however, are
never revoked, so the controller as a whole can hold several live URLs. -/
theorem c1_at_most_one_enhanced_url :
    ∀ (m : Bool) (ops : List Op),
      (enhLive (run (initSt m) ops)).length ≤ 1 ∧
      enhLive (run (initSt m) ops) = enhExpected (run (initSt m) ops) := by
  intro m ops
  have hinit : EnhInv (initSt m) := by
    simp [EnhInv, enhLive, enhExpected, initSt]
  have h := enhInv_run ops (initSt m) hinit
  refine ⟨?_, h⟩
  rw [EnhInv] at h
  rw [h, enhExpected]
  cases (run (initSt m) ops).enhancedImageUrl <;> simp

/-! ### C10: download null-safety -/

/-- The invariant relating the enhanced result to the Selected File: the
presence of an enhanced-result URL implies a selected file. -/
def InvFile (s : St) : Prop :=
  s.enhancedImageUrl.isSome = true → s.currentImageFile.isSome = true

theorem invFile_handleImageFile (s : St) (file : Option JFile) (ro : ReadOutcome)
    (dims : Option (Nat × Nat)) (h : InvFile s) :
    InvFile (handleImageFile s file ro dims) := by
  cases file with
  | none => simpa [handleImageFile, showStatus, InvFile] using h
  | some f =>
    by_cases ht : jsMatchImageDotStar f.type
    · by_cases hs : f.size > (if s.isMobile then 5 * 1024 * 1024 else 10 * 1024 * 1024)
      · simpa [handleImageFile, ht, hs, showStatus, InvFile] using h
      · cases ro with
        | success d =>
          cases hu : s.enhancedImageUrl <;> cases dims <;>
            simp [handleImageFile, ht, hs, showStatus, displayImage, updateImageStats,
              createURL, resetEnhancedPreview, revokeURL, hu, InvFile]
        | failure => simp [handleImageFile, ht, hs, showStatus, InvFile]
        | aborted => simp [handleImageFile, ht, hs, showStatus, InvFile]
    · simp only [Bool.not_eq_true] at ht
      simpa [handleImageFile, ht, showStatus, InvFile] using h

theorem invFile_enhanceImage (s : St) (c : Bool) (fo : FetchOutcome)
    (dims : Option (Nat × Nat)) (h : InvFile s) :
    InvFile (enhanceImage s c fo dims).1 := by
  cases hf : s.currentImageFile with
  | none => simpa [enhanceImage, hf, showStatus, InvFile] using h
  | some f =>
    by_cases hcond : (s.isMobile && decide (s.superResSelect ≥ 4) && !c) = true
    · simpa [enhanceImage, hf, hcond] using h
    · simp only [Bool.not_eq_true] at hcond
      cases hm : s.isMobile with
      | false =>
        cases fo <;> cases hu : s.enhancedImageUrl <;> cases dims <;>
          simp [enhanceImage, hf, hcond, hm, hu, showLoading, showStatus,
            showErrorModal, displayImage, createURL, revokeURL, InvFile]
      | true =>
        rw [hm] at hcond
        have hg : ¬(4 ≤ s.superResSelect ∧ c = false) := by
          intro hx
          rcases hx with ⟨h1, h2⟩
          subst h2
          simp [h1] at hcond
        cases fo <;> cases hu : s.enhancedImageUrl <;> cases dims <;>
          simp [enhanceImage, hf, hcond, hm, hu, hg, showLoading, showStatus,
            showErrorModal, displayImage, createURL, revokeURL, InvFile, hf]

theorem invFile_step (s : St) (op : Op) (h : InvFile s) : InvFile (step s op) := by
  cases op with
  | acceptFile f ro dims => exact invFile_handleImageFile s f ro dims h
  | enhance c fo dims => exact invFile_enhanceImage s c fo dims h
  | download nowIso =>
    cases hu : s.enhancedImageUrl with
    | none => simp [step, downloadImage, hu, showStatus, InvFile]
    | some u =>
      cases hf : s.currentImageFile with
      | none =>
        have himp := h (by simp [hu])
        rw [hf] at himp
        simp at himp
      | some f => simp [step, downloadImage, hu, hf, showStatus, InvFile]
  | reset =>
    cases hu : s.enhancedImageUrl <;>
      simp [step, resetAll, resetImagePreview, hu, showStatus, revokeURL, InvFile]

theorem invFile_run (ops : List Op) (s : St) (h : InvFile s) : InvFile (run s ops) := by
  induction ops generalizing s with
  | nil => simpa [run] using h
  | cons op ops ih =>
    have hstep := invFile_step s op h
    simpa [run, List.foldl_cons] using ih (step s op) hstep

/-- C10: every controller operation preserves the invariant that a live
enhanced-result URL implies a selected file; the invariant holds in every
state reachable from a fresh page; and consequently `downloadImage` — which
reads `currentImageFile.name` unguarded whenever the enhanced-result URL is
set — never dereferences a null selected file on any reachable state. -/
theorem c10_download_never_null :
    (∀ (s : St) (op : Op), InvFile s → InvFile (step s op)) ∧
    (∀ (m : Bool) (ops : List Op), InvFile (run (initSt m) ops)) ∧
    (∀ (m : Bool) (ops : List Op) (nowIso : String),
      (downloadImage (run (initSt m) ops) nowIso).2 ≠ DownloadOutcome.nullDeref) := by
  have hrun : ∀ (m : Bool) (ops : List Op), InvFile (run (initSt m) ops) := by
    intro m ops
    exact invFile_run ops (initSt m) (by simp [InvFile, initSt])
  refine ⟨invFile_step, hrun, ?_⟩
  intro m ops nowIso
  have h := hrun m ops
  cases hu : (run (initSt m) ops).enhancedImageUrl with
  | none => simp [downloadImage, hu]
  | some u =>
    have hsome : (run (initSt m) ops).currentImageFile.isSome = true := by
      exact h (by simp [hu])
    cases hf : (run (initSt m) ops).currentImageFile with
    | none => rw [hf] at hsome; simp at hsome
    | some f => simp [downloadImage, hu, hf]

/-- C10 witness. -/
theorem c10_witness :
    (InvFile sampleEnhancedSt → InvFile (step sampleEnhancedSt Op.reset)) ∧
    InvFile (run (initSt false)
      [Op.acceptFile (some sampleImage) (ReadOutcome.success "d") (some (2, 2)),
       Op.enhance true (FetchOutcome.ok 5) (some (2, 2))]) ∧
    (downloadImage
        (run (initSt false)
          [Op.acceptFile (some sampleImage) (ReadOutcome.success "d") (some (2, 2)),
           Op.enhance true (FetchOutcome.ok 5) (some (2, 2))])
        "2026-10-11T12:00:00.000Z").2 ≠ DownloadOutcome.nullDeref := by
  refine ⟨fun h => c10_download_never_null.1 sampleEnhancedSt Op.reset h, ?_, ?_⟩
  · exact c10_download_never_null.2.1 false
      [Op.acceptFile (some sampleImage) (ReadOutcome.success "d") (some (2, 2)),
       Op.enhance true (FetchOutcome.ok 5) (some (2, 2))]
  · exact c10_download_never_null.2.2 false
      [Op.acceptFile (some sampleImage) (ReadOutcome.success "d") (some (2, 2)),
       Op.enhance true (FetchOutcome.ok 5) (some (2, 2))] "2026-10-11T12:00:00.000Z"
